import Mathlib

/-!
# Verification of the BOL PDF-to-CSV extraction and reconciliation pipeline

Shallow embedding of the core data pipeline of the `pdf-csv-bol` repository:

* the table parser (`data_processor.py`, `_extract_table_data` / `_is_valid_table_row`),
* the invoice aggregator (`_process_invoice_data`, `_calculate_totals_from_rows`),
* the tabular emitter (`_format_csv`),
* the reconciler (`app.py`, `process_csv_file`, `compute_pallet`,
  `compute_burlington`, `compute_final_cube`, `parse_cancel_date`).

Strings are modelled as lists of characters (`Str`).  Cells of a pandas
DataFrame read with `dtype=str` are modelled as `Option Str`: `none` is a
missing value (`NaN`), which is what an empty CSV cell becomes on read-back.
Python decimal arithmetic on the small decimal strings appearing here is
modelled exactly with rationals.
-/

/-- Strings are modelled as lists of characters. -/
abbrev Str := List Char

/-- Python `str.split()` / `str.strip()` whitespace characters
(space, tab, newline, carriage return, vertical tab, form feed). -/
def pyWsChar (c : Char) : Bool :=
  c = ' ' || c = '\t' || c = '\n' || c = '\r' || c = '\x0b' || c = '\x0c'

/-- Python `str.strip()`: drop leading and trailing whitespace. -/
def stripPy (l : Str) : Str :=
  ((l.dropWhile pyWsChar).reverse.dropWhile pyWsChar).reverse

/-- Helper for `splitWs`: accumulate the current (reversed) token. -/
def splitWsAux : Str → Str → List Str
  | [], acc => if acc.isEmpty then [] else [acc.reverse]
  | c :: rest, acc =>
    if pyWsChar c then
      if acc.isEmpty then splitWsAux rest [] else acc.reverse :: splitWsAux rest []
    else splitWsAux rest (c :: acc)

/-- Python `str.split()` with no argument: split on runs of whitespace,
discarding empty tokens. -/
def splitWs (l : Str) : List Str := splitWsAux l []

/-- Python `.replace(",", "")`: remove every comma. -/
def remComma (l : Str) : Str := l.filter (fun c => c ≠ ',')

/-- Python `str.lower()` (ASCII range; inputs here are ASCII). -/
def lowerS (l : Str) : Str := l.map Char.toLower

/-- Python `str.upper()` (ASCII range; inputs here are ASCII). -/
def upperS (l : Str) : Str := l.map Char.toUpper

/-- ASCII decimal digit. -/
def isDigitChar (c : Char) : Bool := '0' ≤ c && c ≤ '9'

/-- ASCII letter (what `[A-Z]` matches under `re.IGNORECASE`). -/
def isAlphaChar (c : Char) : Bool := ('A' ≤ c && c ≤ 'Z') || ('a' ≤ c && c ≤ 'z')

/-- ASCII uppercase letter (what `[A-Z]` matches without flags). -/
def isUpperChar (c : Char) : Bool := 'A' ≤ c && c ≤ 'Z'

/-- Regex word character `\w` (ASCII range). -/
def wordChar (c : Char) : Bool := isAlphaChar c || isDigitChar c || c = '_'

/-- Substring test: does `pat` occur contiguously inside the second list?
(Python `pat in s`.) -/
def containsSub (pat : Str) : Str → Bool
  | [] => pat.isEmpty
  | c :: rest => pat.isPrefixOf (c :: rest) || containsSub pat rest

/-- The suffix just after the first occurrence of `pat`, if any. -/
def afterSub (pat : Str) : Str → Option Str
  | [] => if pat.isEmpty then some [] else none
  | c :: rest =>
    if pat.isPrefixOf (c :: rest) then some ((c :: rest).drop pat.length)
    else afterSub pat rest

/-- Case-insensitive prefix test (`re.match` of a literal with `re.IGNORECASE`). -/
def startsWithCI (pat l : Str) : Bool := (upperS pat).isPrefixOf (upperS l)

/-- Maximal runs of characters satisfying `p` (helper). -/
def runsByAux (p : Char → Bool) : Str → Str → List Str
  | [], acc => if acc.isEmpty then [] else [acc.reverse]
  | c :: rest, acc =>
    if p c then runsByAux p rest (c :: acc)
    else if acc.isEmpty then runsByAux p rest []
    else acc.reverse :: runsByAux p rest []

/-- Maximal runs of characters satisfying `p` inside a string.
`runsBy isDigitChar` is `re.findall(r'\d+', ·)`. -/
def runsBy (p : Char → Bool) (l : Str) : List Str := runsByAux p l []

/-- `re.match(r'^\d+\.?\d*$', w)`: one or more digits, an optional dot,
then zero or more digits — anchored on both sides. -/
def decPat (w : Str) : Bool :=
  let sp := w.span (fun c => isDigitChar c)
  !sp.1.isEmpty &&
    (sp.2.isEmpty || (sp.2.head? = some '.' && sp.2.tail.all isDigitChar))

/-- Join tokens with single spaces (Python `' '.join(...)`). -/
def joinSpace : List Str → Str
  | [] => []
  | [w] => w
  | w :: ws => w ++ ' ' :: joinSpace ws

/-- `' '.join(line.split())`: collapse whitespace runs to single spaces. -/
def normJoin (l : Str) : Str := joinSpace (splitWs l)

/-- `re.match(r'^CARTONS.*STYLE.*PIECES', line, re.IGNORECASE)`:
the line starts with CARTONS and later contains STYLE followed by PIECES. -/
def matchHeaderPat (l : Str) : Bool :=
  let u := upperS l
  ("CARTONS".toList).isPrefixOf u &&
    (match afterSub ("STYLE".toList) (u.drop 7) with
     | some rest => containsSub ("PIECES".toList) rest
     | none => false)

/-- `re.match(r'^Page \d+', line, re.IGNORECASE)`. -/
def matchPagePat (l : Str) : Bool :=
  startsWithCI ("Page ".toList) l &&
    (match l.drop 5 with
     | c :: _ => isDigitChar c
     | [] => false)

/-- Helper for `matchLabelPat`: scan `[A-Za-z\s]*` and test for a `':'`. -/
def labelColonAux : Str → Nat → Bool
  | [], _ => false
  | c :: rest, n =>
    if isAlphaChar c || pyWsChar c then labelColonAux rest (n + 1)
    else c = ':' && decide (1 ≤ n)

/-- `re.match(r'^[A-Z\s]+:', line, re.IGNORECASE)`: one or more
letters/whitespace followed by a colon, at the start of the line. -/
def matchLabelPat (l : Str) : Bool := labelColonAux l 0

/-- Does the string start with a digit (`re.match(r'^\d+', ·)`)? -/
def startsWithDigit (l : Str) : Bool :=
  match l with
  | c :: _ => isDigitChar c
  | [] => false

/-- `re.search(r'\b[A-Z]+\d+\b', l)`: since `[A-Z]` and `\d` are word
characters and the match is delimited by word boundaries, this holds iff
some maximal word-character run is exactly uppercase-letters then digits. -/
def hasUpperDigitWord (l : Str) : Bool :=
  (runsBy wordChar l).any (fun w =>
    let sp := w.span (fun c => isUpperChar c)
    !sp.1.isEmpty && !sp.2.isEmpty && sp.2.all isDigitChar)

/-- `re.search(r'\b\d+[A-Z]+\b', l)`: some maximal word-character run is
exactly digits then uppercase letters. -/
def hasDigitUpperWord (l : Str) : Bool :=
  (runsBy wordChar l).any (fun w =>
    let sp := w.span (fun c => isDigitChar c)
    !sp.1.isEmpty && !sp.2.isEmpty && sp.2.all isUpperChar)

/-- `DataProcessor._is_valid_table_row` (data_processor.py:245-285):
normalize whitespace, reject known non-data patterns, then accept a line
that starts with a digit, or contains at least three digit runs, or has a
style-like token together with at least three tokens one of which starts
with a digit. -/
def isValidTableRow (line0 : Str) : Bool :=
  let line := normJoin line0
  if line.isEmpty then false
  else if matchHeaderPat line then false
  else if startsWithCI ("SHIPPING INSTRUCTIONS".toList) line then false
  else if startsWithCI ("TOTAL CARTONS".toList) line then false
  else if matchPagePat line then false
  else if startsWithCI ("BILL OF LADING".toList) line then false
  else if matchLabelPat line then false
  else if startsWithDigit line then true
  else if 3 ≤ (runsBy isDigitChar line).length then true
  else if (hasUpperDigitWord line || hasDigitUpperWord line)
            && 3 ≤ (splitWs line).length
            && (splitWs line).any startsWithDigit then true
  else false

/-- One shipment line recovered from a table (stored in the code as the
list `[cartons, individual_pieces, individual_weight, style]`). -/
structure ParsedRow where
  cartons : Str
  pieces : Str
  weight : Str
  style : Str
deriving DecidableEq, Repr

/-- The per-line data-row branch of `DataProcessor._extract_table_data`
(data_processor.py:212-238): a stripped table-region line yields a row iff
it passes `_is_valid_table_row`, has at least 3 whitespace tokens and some
token whose comma-stripped form matches the decimal pattern; the weight is
found by scanning the tokens from the end. -/
def processDataLine (line : Str) : Option ParsedRow :=
  if isValidTableRow line then
    let toks := splitWs line
    if 3 ≤ toks.length then
      match toks.reverse.find? (fun t => decPat (remComma t)) with
      | some t =>
        some ⟨remComma (toks.getD 0 []), remComma (toks.getD 2 []),
              remComma t, toks.getD 1 []⟩
      | none => none
    else none
  else none

/-! ## Python numeric conversions, modelled exactly over `ℚ` -/

/-- Numeric value of a digit string (most significant first). -/
def natOfDigits (l : Str) : Nat :=
  l.foldl (fun acc c => acc * 10 + (c.toNat - '0'.toNat)) 0

/-- Python `int(s)`: surrounding whitespace, an optional sign, then digits.
(Underscore digit grouping is not modelled; no input here uses it.) -/
def pyInt (l0 : Str) : Option Int :=
  let l := stripPy l0
  match l with
  | '+' :: r => if !r.isEmpty && r.all isDigitChar then some (natOfDigits r) else none
  | '-' :: r => if !r.isEmpty && r.all isDigitChar then some (-(natOfDigits r : Int)) else none
  | r => if !r.isEmpty && r.all isDigitChar then some (natOfDigits r) else none

/-- Build `±mant / 10^fracLen · 10^e` as a rational (decimal semantics). -/
def decToRat (neg : Bool) (mant : Nat) (fracLen : Nat) (e : Int) : ℚ :=
  let n : Int := if neg then -(mant : Int) else (mant : Int)
  match e with
  | .ofNat k => mkRat (n * (10 : Int) ^ k) ((10 : Nat) ^ fracLen)
  | .negSucc k => mkRat n ((10 : Nat) ^ (fracLen + k + 1))

/-- Mantissa of a Python float literal: `digits [. digits*]` or `. digits+`.
Returns the digits with the implied fractional length. -/
def parseMantissa (l : Str) : Option (Nat × Nat) :=
  let sp := l.span (fun c => isDigitChar c)
  match sp.2 with
  | [] => if sp.1.isEmpty then none else some (natOfDigits sp.1, 0)
  | '.' :: fr =>
    if fr.all isDigitChar && (!sp.1.isEmpty || !fr.isEmpty) then
      some (natOfDigits (sp.1 ++ fr), fr.length)
    else none
  | _ => none

/-- Exponent part of a Python float literal (after `e`/`E`). -/
def parseExp (l : Str) : Option Int :=
  match l with
  | '+' :: r => if !r.isEmpty && r.all isDigitChar then some (natOfDigits r) else none
  | '-' :: r => if !r.isEmpty && r.all isDigitChar then some (-(natOfDigits r : Int)) else none
  | r => if !r.isEmpty && r.all isDigitChar then some (natOfDigits r) else none

/-- Unsigned core of Python `float(s)` for finite decimal literals. -/
def pyFloatCore (neg : Bool) (l : Str) : Option ℚ :=
  let sp := l.span (fun c => c ≠ 'e' && c ≠ 'E')
  match sp.2 with
  | [] => (parseMantissa l).map (fun m => decToRat neg m.1 m.2 0)
  | _ :: ex =>
    match parseMantissa sp.1, parseExp ex with
    | some m, some e => some (decToRat neg m.1 m.2 e)
    | _, _ => none

/-- Python `float(s)` on finite decimal literals, modelled exactly as a
rational.  `float` also accepts `inf` / `nan` (and underscore grouping);
those inputs are not modelled — in the one consumer (`compute_pallet`)
they raise inside `math.ceil` and end in the same blank result. -/
def pyFloat (l0 : Str) : Option ℚ :=
  match stripPy l0 with
  | '+' :: r => pyFloatCore false r
  | '-' :: r => pyFloatCore true r
  | r => pyFloatCore false r

/-- Python `int(f)` on a decimal value: truncation toward zero. -/
def pyTruncInt (q : ℚ) : Int := q.num.tdiv (q.den : Int)

/-- Python `str(n)` for an integer. -/
def intToStr (i : Int) : Str :=
  if i < 0 then '-' :: Nat.toDigits 10 i.natAbs else Nat.toDigits 10 i.toNat

/-- Computable `⌈q / k⌉` (used to model `math.ceil(value / 80)`). -/
def ceilDiv (q : ℚ) (k : Nat) : Int := -((-q.num).fdiv ((q.den : Int) * (k : Int)))

theorem ceilDiv_eq_ceil (q : ℚ) (k : Nat) (hk : 0 < k) :
    ceilDiv q k = ⌈q / (k : ℚ)⌉ := by
  have hq : q / (k : ℚ) = ((q.num : ℚ)) / (((q.den * k : ℕ) : ℚ)) := by
    conv_lhs => rw [← Rat.num_div_den q]
    rw [div_div]
    push_cast
    try ring_nf
  have hceil : ⌈(q.num : ℚ) / ((q.den * k : ℕ) : ℚ)⌉
      = -⌊((-q.num : ℤ) : ℚ) / ((q.den * k : ℕ) : ℚ)⌋ := by
    push_cast
    rw [neg_div, Int.floor_neg, Int.neg_neg]
  rw [hq, hceil, Rat.floor_intCast_div_natCast, ceilDiv]
  have hcast : ((q.den : Int) * (k : Int)) = ((q.den * k : ℕ) : Int) := by push_cast; ring
  rw [hcast, Int.fdiv_eq_ediv _ (by positivity)]

/-! ## Invoice aggregator (`data_processor.py`) -/

/-- Per-page parse result collected by `_collect_invoice_data`
(data_processor.py:145-159). -/
structure PageExtraction where
  rows : List ParsedRow
  hasTotals : Bool
  totPieces : Str
  totWeight : Str
  bolCube : Str
deriving DecidableEq, Repr, Inhabited

/-- The qualification test of `_process_invoice_data` (data_processor.py:317):
`page['has_totals'] and page['totals']['pieces'] and page['totals']['weight']`
(Python truthiness of a string is non-emptiness). -/
def pageQualifies (p : PageExtraction) : Bool :=
  p.hasTotals && !p.totPieces.isEmpty && !p.totWeight.isEmpty

/-- The two parsed numeric fields of a row, as used by
`_calculate_totals_from_rows`: an empty field counts as zero, a field that
fails to parse makes the whole row contribute nothing. -/
def rowNums (r : ParsedRow) : Option (Int × ℚ) :=
  match (if r.pieces.isEmpty then some 0 else pyInt (remComma r.pieces)) with
  | none => none
  | some p =>
    match (if r.weight.isEmpty then some 0 else pyFloat (remComma r.weight)) with
    | none => none
    | some w => some (p, w)

/-- `DataProcessor._calculate_totals_from_rows` (data_processor.py:361-381):
sum `individual_pieces` as integers and `individual_weight` as decimals over
all rows of all pages, skipping unparseable rows, and render the weight
truncated to an integer. -/
def calcTotalsFromRows (pages : List PageExtraction) : Str × Str :=
  let step := fun (acc : Int × ℚ) (r : ParsedRow) =>
    match rowNums r with
    | some pw => (acc.1 + pw.1, acc.2 + pw.2)
    | none => acc
  let tot := pages.foldl (fun acc page => page.rows.foldl step acc) (0, 0)
  (intToStr tot.1, intToStr (pyTruncInt tot.2))

/-- First page with a non-empty `bol_cube` (data_processor.py:329-332). -/
def firstBolCube (pages : List PageExtraction) : Str :=
  match pages.find? (fun p => !p.bolCube.isEmpty) with
  | some p => p.bolCube
  | none => []

/-- Totals / BOL-cube resolution of `_process_invoice_data`
(data_processor.py:310-334): scan the pages in reverse for the first
qualifying page and take its totals and `bol_cube`; otherwise compute
totals from the rows and take the first non-empty `bol_cube`. -/
def resolveTotalsBol (pages : List PageExtraction) : (Str × Str) × Str :=
  match pages.reverse.find? pageQualifies with
  | some p => ((p.totPieces, p.totWeight), p.bolCube)
  | none => (calcTotalsFromRows pages, firstBolCube pages)

/-- One element of `all_rows` in `_process_invoice_data`
(`[cartons, bol_cube, individual_pieces, individual_weight, invoice_no, style]`). -/
structure AllRow where
  cartons : Str
  bolCube : Str
  pieces : Str
  weight : Str
  invoice : Str
  style : Str
deriving DecidableEq, Repr, Inhabited

/-- Row collection of `_process_invoice_data` (data_processor.py:336-342):
every row of every page, each carrying the single resolved `bol_cube`. -/
def buildAllRows (inv bol : Str) (pages : List PageExtraction) : List AllRow :=
  pages.flatMap (fun p => p.rows.map (fun r => ⟨r.cartons, bol, r.pieces, r.weight, inv, r.style⟩))

/-- `_process_invoice_data` up to the call of `_format_csv`: resolved
totals, resolved `bol_cube`, and the collected rows. -/
def processInvoice (inv : Str) (pages : List PageExtraction) :
    (Str × Str) × Str × List AllRow :=
  let r := resolveTotalsBol pages
  (r.1, r.2, buildAllRows inv r.2 pages)

/-! ## Tabular emitter (`_format_csv`, data_processor.py:383-453)

The emitted CSV is immediately read back by the reconciler with
`pd.read_csv(..., dtype=str)`, under which an empty cell becomes a missing
value.  We therefore model an output row directly as its read-back form:
`Option Str` cells, `none` for blank. -/

/-- A written cell as it reads back under `dtype=str`: blank becomes `NaN`. -/
def mkCell (s : Str) : Option Str := if s.isEmpty then none else some s

/-- One row of the 28-column output schema.  The named fields are the
columns the pipeline ever writes or reads; `rest` holds the remaining 12
always-blank columns so that frame properties are expressible.  The
`pallet`, `burlingtonCube` and `finalCube` columns hold either a blank or
an integer (the reconciler assigns Python ints into them). -/
structure DRow where
  orderDate : Option Str
  shipToName : Option Str
  purchaseOrderNo : Option Str
  startDate : Option Str
  cancelDate : Option Str
  invoiceNo : Option Str
  style : Option Str
  cartons : Option Str
  individualPieces : Option Str
  individualWeight : Option Str
  bolCube : Option Str
  totalPieces : Option Str
  totalWeight : Option Str
  pallet : Option Int
  burlingtonCube : Option Int
  finalCube : Option Int
  rest : List (Option Str)
deriving DecidableEq, Repr, Inhabited

/-- The construction of one output row in `_format_csv` (lines 428-451):
the six data columns are copied from the row, and the totals columns are
filled only on the first row of each invoice group, tracked by comparing
against the previous row's invoice number (`current_invoice` starts as
`None`, so the very first row always gets the totals). -/
def assignTotals (tp tw : Str) : Option Str → List AllRow → List DRow
  | _, [] => []
  | cur, r :: restRows =>
    let first : Bool := cur ≠ some r.invoice
    { orderDate := none, shipToName := none, purchaseOrderNo := none,
      startDate := none, cancelDate := none,
      invoiceNo := mkCell r.invoice, style := mkCell r.style,
      cartons := mkCell r.cartons, individualPieces := mkCell r.pieces,
      individualWeight := mkCell r.weight, bolCube := mkCell r.bolCube,
      totalPieces := if first then mkCell tp else none,
      totalWeight := if first then mkCell tw else none,
      pallet := none, burlingtonCube := none, finalCube := none,
      rest := List.replicate 12 none } :: assignTotals tp tw (some r.invoice) restRows

/-- Python's `<` on strings: lexicographic comparison by code point. -/
def lexLtCh : Str → Str → Bool
  | [], [] => false
  | [], _ :: _ => true
  | _ :: _, [] => false
  | a :: as, b :: bs => decide (a < b) || (a == b && lexLtCh as bs)

/-- Python's `<=` on strings. -/
def lexLeCh (s t : Str) : Bool := lexLtCh s t || s == t

/-- The comparison key of `sorted(rows, key=lambda x: x[4])`
(data_processor.py:421): lexicographic string order on the invoice number. -/
def rowLeByInvoice (a b : AllRow) : Bool := lexLeCh a.invoice b.invoice

/-- `sorted(rows, key=lambda x: x[4])`: Python's sort is stable, and a
stable sort under a total preorder is unique, so it is modelled by the
stable `insertionSort` under the same preorder. -/
def sortRowsByInvoice (rows : List AllRow) : List AllRow :=
  rows.insertionSort (fun a b => rowLeByInvoice a b = true)

/-- `_format_csv` as read back under `dtype=str`: sort by invoice number,
then emit rows with totals only on the first row of each invoice group. -/
def emitRows (rows : List AllRow) (tp tw : Str) : List DRow :=
  assignTotals tp tw none (sortRowsByInvoice rows)

/-! ## Reconciler (`app.py`, `process_csv_file`) -/

/-- A row of the externally uploaded file after the column renames, read
with `dtype=str` (cells may be missing).  Carries the four match-key
columns and the five mapped source columns. -/
structure ExtRow where
  invoiceDate : Option Str
  shipToName : Option Str
  orderNo : Option Str
  deliveryDate : Option Str
  cancelDate : Option Str
  invoiceNo : Option Str
  style : Option Str
  cartons : Option Str
  individualPieces : Option Str
deriving DecidableEq, Repr, Inhabited

/-- Key-field normalization of `create_match_key` (app.py:169-173):
`fillna('')`, `str(x).strip().replace(",", "").lower()`. -/
def normCell (c : Option Str) : Str := lowerS (remComma (stripPy (c.getD [])))

/-- Composite match key of a combined-dataset row: the four normalized key
fields joined with underscores. -/
def matchKey (r : DRow) : Str :=
  normCell r.invoiceNo ++ '_' ::
    (normCell r.style ++ '_' :: (normCell r.cartons ++ '_' :: normCell r.individualPieces))

/-- Composite match key of an external row (same four columns). -/
def extKey (e : ExtRow) : Str :=
  normCell e.invoiceNo ++ '_' ::
    (normCell e.style ++ '_' :: (normCell e.cartons ++ '_' :: normCell e.individualPieces))

/-- The five-field overwrite performed on the matched combined row
(app.py:190-193): `Invoice Date→Order Date`, `Ship-to Name→Ship To Name`,
`Order No.→Purchase Order No.`, `Delivery Date→Start Date`,
`Cancel Date→Cancel Date`. -/
def overwriteFive (r : DRow) (e : ExtRow) : DRow :=
  { r with orderDate := e.invoiceDate, shipToName := e.shipToName,
           purchaseOrderNo := e.orderNo, startDate := e.deliveryDate,
           cancelDate := e.cancelDate }

/-- One iteration of the merge loop (app.py:185-193): find the first
combined row whose match key equals the external row's key and overwrite
its five mapped fields; no match leaves the dataset unchanged. -/
def applyMerge (df : List DRow) (e : ExtRow) : List DRow :=
  match df.findIdx? (fun r => matchKey r == extKey e) with
  | none => df
  | some i => df.set i (overwriteFive (df.getD i default) e)

/-- The whole merge loop over the incoming rows, in file order. -/
def mergeAll (df : List DRow) (incs : List ExtRow) : List DRow :=
  incs.foldl applyMerge df

/-- `compute_pallet` (app.py:306-312):
`math.ceil(float(str(bol_cube).replace(",", "").strip()) / 80)`, with any
exception (missing value, non-numeric string) yielding blank. -/
def compute_pallet (bolCube : Option Str) : Option Int :=
  match bolCube with
  | none => none
  | some s =>
    match pyFloat (stripPy (remComma s)) with
    | some q => some (ceilDiv q 80)
    | none => none

/-- `compute_burlington` (app.py:314-323): `pallet * 93` when the ship-to
name is a string containing "burlington" case-insensitively and the pallet
value is neither missing nor blank; blank otherwise. -/
def compute_burlington (ship : Option Str) (pallet : Option Int) : Option Int :=
  match ship with
  | some s =>
    if containsSub ("burlington".toList) (lowerS s) then
      match pallet with
      | none => none
      | some p => some (p * 93)
    else none
  | none => none

/-- `compute_final_cube` (app.py:325-334): `pallet * 130` when the ship-to
name is a string NOT containing "burlington"; blank otherwise (including
when the ship-to name is a missing value, which is not a string). -/
def compute_final_cube (ship : Option Str) (pallet : Option Int) : Option Int :=
  match ship with
  | some s =>
    if containsSub ("burlington".toList) (lowerS s) then none
    else
      match pallet with
      | none => none
      | some p => some (p * 130)
  | none => none

/-- Python `!=` between two cells: a missing value (`NaN`) compares
unequal to everything, including another missing value. -/
def pyCellNeq (a b : Option Str) : Bool :=
  match a, b with
  | some x, some y => decide (x ≠ y)
  | _, _ => true

/-- The derived-column pass of `process_csv_file` (app.py:199-241): the
`Pallet`, `Burlington Cube` and `Final Cube` columns are first blanked for
every row, then set — from values computed on that same row — only on the
first row of each invoice group, detected by comparing with the previous
row's invoice number (the tracker starts as Python `None`). -/
def deriveStep : Option (Option Str) → List DRow → List DRow
  | _, [] => []
  | cur, r :: restRows =>
    let first : Bool :=
      match cur with
      | none => true
      | some prev => pyCellNeq r.invoiceNo prev
    let pv := compute_pallet r.bolCube
    (if first then
      { r with pallet := pv,
               burlingtonCube := compute_burlington r.shipToName pv,
               finalCube := compute_final_cube r.shipToName pv }
     else
      { r with pallet := none, burlingtonCube := none, finalCube := none })
    :: deriveStep (some r.invoiceNo) restRows

/-! ### Cancel-date parsing and the final sort (app.py:243-294) -/

/-- A calendar date (what a successfully parsed `pd.Timestamp` carries). -/
structure CalDate where
  year : Nat
  month : Nat
  day : Nat
deriving DecidableEq, Repr, Inhabited

/-- Gregorian leap year. -/
def leapYear (y : Nat) : Bool := y % 4 = 0 && (y % 100 ≠ 0 || y % 400 = 0)

/-- Days in a month of a given year. -/
def daysInMonth (y m : Nat) : Nat :=
  if m = 2 then (if leapYear y then 29 else 28)
  else if m = 4 || m = 6 || m = 9 || m = 11 then 30
  else 31

/-- Validity of `m/d/y` as a calendar date under `%m/%d/%Y` parsing. -/
def validDate (y m d : Nat) : Bool :=
  1 ≤ y && 1 ≤ m && m ≤ 12 && 1 ≤ d && d ≤ daysInMonth y m

/-- Pandas `Timestamp` representability at midnight granularity:
`pd.to_datetime` raises `OutOfBoundsDatetime` outside `Timestamp.min`
(1677-09-21 00:12:43.145224193) .. `Timestamp.max`
(2262-04-11 23:47:16.854775807), so the representable midnight dates are
1677-09-22 through 2262-04-11. -/
def inTimestampBounds (y m d : Nat) : Bool :=
  (1677 < y || (y = 1677 && (9 < m || (m = 9 && 22 ≤ d)))) &&
  (y < 2262 || (y = 2262 && (m < 4 || (m = 4 && d ≤ 11))))

/-- `pd.to_datetime(f"{ms}/{ds}/{ys}", format="%m/%d/%Y")` on the component
strings produced by `parse_cancel_date`: succeeds iff every component is a
digit string and the resulting numbers form a valid calendar date within
pandas' representable `Timestamp` range (an out-of-bounds date raises
`OutOfBoundsDatetime`, which the bare `except` turns into `NaT`). -/
def mkValidDate (ms ds ys : Str) : Option CalDate :=
  if ms.all isDigitChar && ds.all isDigitChar && ys.all isDigitChar
      && !ms.isEmpty && !ds.isEmpty && !ys.isEmpty then
    if validDate (natOfDigits ys) (natOfDigits ms) (natOfDigits ds)
        && inTimestampBounds (natOfDigits ys) (natOfDigits ms) (natOfDigits ds) then
      some ⟨natOfDigits ys, natOfDigits ms, natOfDigits ds⟩
    else none
  else none

/-- Python `str.zfill(2)`. -/
def zfill2 (s : Str) : Str := List.replicate (2 - s.length) '0' ++ s

/-- `parse_cancel_date` (app.py:243-274): length 7 is `MDDYYYY` with the
month zero-padded, length 8 is `MMDDYYYY`; anything else, or a failed
calendar parse, is the null marker `pd.NaT` (`none`). -/
def parse_cancel_date (s0 : Str) : Option CalDate :=
  let s := stripPy s0
  if s.length = 7 then
    mkValidDate (zfill2 (s.take 1)) ((s.drop 1).take 2) (s.drop 3)
  else if s.length = 8 then
    mkValidDate (s.take 2) ((s.drop 2).take 2) (s.drop 4)
  else none

/-- `parse_cancel_date` applied to a DataFrame cell: a missing value is
stringified to `"nan"` first (length 3, hence `NaT`). -/
def parseCancelCell (c : Option Str) : Option CalDate :=
  parse_cancel_date (match c with | some s => s | none => "nan".toList)

/-- Strict chronological order on calendar dates. -/
def dateLt (a b : CalDate) : Bool :=
  a.year < b.year || (a.year = b.year &&
    (a.month < b.month || (a.month = b.month && a.day < b.day)))

/-- Strict order on a date key with the null marker (`NaT`) ordered AFTER
every valid date (`na_position='last'` in the ascending sort). -/
def optDateLt (a b : Option CalDate) : Bool :=
  match a, b with
  | some x, some y => dateLt x y
  | some _, none => true
  | none, _ => false

/-- Non-strict version of `optDateLt`. -/
def optDateLe (a b : Option CalDate) : Bool := optDateLt a b || a == b

/-- Strict order on a string key with missing values last. -/
def optStrLt (a b : Option Str) : Bool :=
  match a, b with
  | some x, some y => lexLtCh x y
  | some _, none => true
  | none, _ => false

/-- `min_cancel_date` (app.py:282): the minimum parsed cancel date over all
rows sharing this row's `Ship To Name` (missing dates are skipped; rows
with a missing ship-to name are outside every group and get a missing
minimum). -/
def minCancelFor (df : List DRow) (r : DRow) : Option CalDate :=
  match r.shipToName with
  | none => none
  | some s =>
    (df.filterMap (fun r' =>
        if r'.shipToName = some s then parseCancelCell r'.cancelDate else none)).foldl
      (fun acc d =>
        match acc with
        | none => some d
        | some m => some (if dateLt d m then d else m)) none

/-- The three-part sort key of the final
`sort_values(by=["min_cancel_date", "Ship To Name", "Cancel Date_dt"])`. -/
def finalSortLe (df : List DRow) (a b : DRow) : Bool :=
  let a1 := minCancelFor df a
  let b1 := minCancelFor df b
  optDateLt a1 b1 ||
    (a1 == b1 &&
      (optStrLt a.shipToName b.shipToName ||
        (a.shipToName == b.shipToName &&
          optDateLe (parseCancelCell a.cancelDate) (parseCancelCell b.cancelDate))))

/-- The final sort (app.py:276-288).  Pandas' multi-key `sort_values` is a
stable lexicographic sort, modelled by the stable `insertionSort`. -/
def finalSort (df : List DRow) : List DRow :=
  df.insertionSort (fun a b => finalSortLe df a b = true)

/-- The whole reconciliation after reading the two datasets
(app.py:184-294): merge the external rows in, recompute the derived
columns on invoice-group first rows, and apply the final sort. -/
def reconcile (df : List DRow) (incs : List ExtRow) : List DRow :=
  finalSort (deriveStep none (mergeAll df incs))

/-! ## Theorems -/

/-- Scanning a list in reverse finds the LAST element satisfying `p`:
if index `i` satisfies `p` and no later index does, the reverse scan
returns the element at `i`. -/
theorem find?_reverse_of_last {α : Type} (l : List α) (p : α → Bool) (i : Nat)
    (hi : i < l.length) (h1 : p (l.get ⟨i, hi⟩) = true)
    (h2 : ∀ j (hj : j < l.length), i < j → p (l.get ⟨j, hj⟩) = false) :
    l.reverse.find? p = some (l.get ⟨i, hi⟩) := by
  induction l generalizing i with
  | nil => exact absurd hi (by simp)
  | cons x xs ih =>
    rw [List.reverse_cons, List.find?_append]
    cases i with
    | zero =>
      have hnone : xs.reverse.find? p = none := by
        rw [List.find?_eq_none]
        intro a ha
        rw [List.mem_reverse, List.mem_iff_get] at ha
        obtain ⟨⟨j, hj⟩, rfl⟩ := ha
        have := h2 (j + 1) (by simpa using Nat.succ_lt_succ hj) (Nat.succ_pos j)
        simpa using this
      rw [hnone]
      simp only [Option.none_or, List.find?_cons]
      have hx : p x = true := h1
      rw [hx]
      rfl
    | succ n =>
      have hn : n < xs.length := by simpa using Nat.lt_of_succ_lt_succ hi
      have h1' : p (xs.get ⟨n, hn⟩) = true := h1
      have h2' : ∀ j (hj : j < xs.length), n < j → p (xs.get ⟨j, hj⟩) = false := by
        intro j hj hnj
        exact h2 (j + 1) (by simpa using Nat.succ_lt_succ hj) (Nat.succ_lt_succ hnj)
      rw [ih n hn h1' h2']
      rfl

/-- Every row assembled by `_process_invoice_data` carries the single
resolved `bol_cube` value. -/
theorem bolCube_of_mem_buildAllRows (inv bol : Str) (pages : List PageExtraction) :
    ∀ r ∈ buildAllRows inv bol pages, r.bolCube = bol := by
  intro r hr
  simp only [buildAllRows, List.mem_flatMap, List.mem_map] at hr
  obtain ⟨p, -, q, -, rfl⟩ := hr
  rfl

/-- C1: if some collected page has `has_totals` true with non-empty
totals, the aggregator resolves the invoice's totals to the totals of the
LAST such qualifying page in page-arrival order, and every output row of
the invoice carries that same page's `bol_cube`. -/
theorem invoice_totals_from_last_qualifying_page
    (inv : Str) (pages : List PageExtraction) (i : Nat) (hi : i < pages.length)
    (hq : pageQualifies (pages.get ⟨i, hi⟩) = true)
    (hlast : ∀ j (hj : j < pages.length), i < j → pageQualifies (pages.get ⟨j, hj⟩) = false) :
    (processInvoice inv pages).1
        = ((pages.get ⟨i, hi⟩).totPieces, (pages.get ⟨i, hi⟩).totWeight)
    ∧ ∀ r ∈ (processInvoice inv pages).2.2, r.bolCube = (pages.get ⟨i, hi⟩).bolCube := by
  have hfind : pages.reverse.find? pageQualifies = some (pages.get ⟨i, hi⟩) :=
    find?_reverse_of_last pages pageQualifies i hi hq hlast
  have hres : resolveTotalsBol pages
      = (((pages.get ⟨i, hi⟩).totPieces, (pages.get ⟨i, hi⟩).totWeight),
          (pages.get ⟨i, hi⟩).bolCube) := by
    rw [resolveTotalsBol, hfind]
  constructor
  · show (resolveTotalsBol pages).1 = _
    rw [hres]
  · show ∀ r ∈ buildAllRows inv (resolveTotalsBol pages).2 pages, _
    rw [hres]
    exact bolCube_of_mem_buildAllRows inv _ pages

/-- Concrete pages for the C1 witness: the second page is the last
qualifying one (the third has totals but an empty weight). -/
def c1Pages : List PageExtraction :=
  [⟨[⟨"5".toList, "50".toList, "10.5".toList, "S1".toList⟩], false, [], [], "12.00".toList⟩,
   ⟨[⟨"6".toList, "60".toList, "11.5".toList, "S2".toList⟩], true, "7".toList, "993".toList,
      "55.10".toList⟩,
   ⟨[⟨"7".toList, "70".toList, "12.5".toList, "S3".toList⟩], true, "9".toList, [],
      "77.10".toList⟩]

/-- Witness for C1 at a concrete three-page invoice. -/
theorem invoice_totals_from_last_qualifying_page_witness :
    (processInvoice "I1".toList c1Pages).1 = ("7".toList, "993".toList)
    ∧ ((processInvoice "I1".toList c1Pages).2.2.all
        (fun r => r.bolCube == "55.10".toList)) = true := by
  have h := invoice_totals_from_last_qualifying_page "I1".toList c1Pages 1
    (by decide) (by decide) (by decide)
  constructor
  · exact h.1.trans (by decide)
  · rw [List.all_eq_true]
    intro r hr
    rw [h.2 r hr]
    decide

/-- C2: a table-region line classified as a data row yields a `ParsedRow`
with `cartons` = token 0 comma-stripped, `style` = token 1,
`individual_pieces` = token 2 comma-stripped and `individual_weight` = the
LAST token whose comma-stripped form fully matches the decimal pattern;
a line with fewer than 3 tokens, or with no decimal-matching token,
produces no row. -/
theorem table_row_field_extraction (line : Str) :
    ((splitWs line).length < 3 → processDataLine line = none)
    ∧ ((∀ t ∈ splitWs line, decPat (remComma t) = false) → processDataLine line = none)
    ∧ (isValidTableRow line = true →
        ∀ i (hi : i < (splitWs line).length),
          decPat (remComma ((splitWs line).get ⟨i, hi⟩)) = true →
          (∀ j (hj : j < (splitWs line).length), i < j →
            decPat (remComma ((splitWs line).get ⟨j, hj⟩)) = false) →
          3 ≤ (splitWs line).length →
          processDataLine line
            = some ⟨remComma ((splitWs line).getD 0 []),
                    remComma ((splitWs line).getD 2 []),
                    remComma ((splitWs line).get ⟨i, hi⟩),
                    (splitWs line).getD 1 []⟩) := by
  refine ⟨?_, ?_, ?_⟩
  · intro hlen
    simp only [processDataLine]
    split
    · rw [if_neg (by omega)]
    · rfl
  · intro hall
    have hfind : (splitWs line).reverse.find? (fun t => decPat (remComma t)) = none := by
      rw [List.find?_eq_none]
      intro t ht
      rw [List.mem_reverse] at ht
      simp [hall t ht]
    simp only [processDataLine]
    split
    · split
      · rw [hfind]
      · rfl
    · rfl
  · intro hvalid i hi hdec hlast hlen
    have hfind := find?_reverse_of_last (splitWs line)
      (fun t => decPat (remComma t)) i hi hdec hlast
    simp only [processDataLine]
    rw [if_pos hvalid, if_pos hlen, hfind]

/-- Witness for C2 at a concrete line: the weight comes from the last
decimal-matching token, skipping the non-numeric trailing token. -/
theorem table_row_field_extraction_witness :
    processDataLine "12 STY1 2,160 X 595.2".toList
      = some ⟨"12".toList, "2160".toList, "595.2".toList, "STY1".toList⟩ := by
  have h := (table_row_field_extraction "12 STY1 2,160 X 595.2".toList).2.2
    (by decide) 4 (by decide) (by decide) (by decide) (by decide)
  exact h.trans (by decide)

/-- C4: one external row updates at most one combined row — the first, in
dataset order, whose match key equals its key — overwriting exactly the
five mapped fields with the external values; every other row, and every
column of the matched row outside the five mapped fields, keeps its prior
value; an external row with no matching key changes nothing. -/
theorem merge_updates_first_match_only (df : List DRow) (e : ExtRow) :
    ((∀ r ∈ df, matchKey r ≠ extKey e) → applyMerge df e = df)
    ∧ ∀ i (hi : i < df.length), matchKey (df.get ⟨i, hi⟩) = extKey e →
        (∀ j (hj : j < df.length), j < i → matchKey (df.get ⟨j, hj⟩) ≠ extKey e) →
        (applyMerge df e).length = df.length
        ∧ (∀ j, j ≠ i → (applyMerge df e).getD j default = df.getD j default)
        ∧ ((applyMerge df e).getD i default).orderDate = e.invoiceDate
        ∧ ((applyMerge df e).getD i default).shipToName = e.shipToName
        ∧ ((applyMerge df e).getD i default).purchaseOrderNo = e.orderNo
        ∧ ((applyMerge df e).getD i default).startDate = e.deliveryDate
        ∧ ((applyMerge df e).getD i default).cancelDate = e.cancelDate
        ∧ ((applyMerge df e).getD i default).invoiceNo = (df.getD i default).invoiceNo
        ∧ ((applyMerge df e).getD i default).style = (df.getD i default).style
        ∧ ((applyMerge df e).getD i default).cartons = (df.getD i default).cartons
        ∧ ((applyMerge df e).getD i default).individualPieces
            = (df.getD i default).individualPieces
        ∧ ((applyMerge df e).getD i default).individualWeight
            = (df.getD i default).individualWeight
        ∧ ((applyMerge df e).getD i default).bolCube = (df.getD i default).bolCube
        ∧ ((applyMerge df e).getD i default).totalPieces = (df.getD i default).totalPieces
        ∧ ((applyMerge df e).getD i default).totalWeight = (df.getD i default).totalWeight
        ∧ ((applyMerge df e).getD i default).pallet = (df.getD i default).pallet
        ∧ ((applyMerge df e).getD i default).burlingtonCube
            = (df.getD i default).burlingtonCube
        ∧ ((applyMerge df e).getD i default).finalCube = (df.getD i default).finalCube
        ∧ ((applyMerge df e).getD i default).rest = (df.getD i default).rest := by
  constructor
  · intro hno
    have hidx : df.findIdx? (fun r => matchKey r == extKey e) = none := by
      rw [List.findIdx?_eq_none_iff]
      intro r hr
      simpa using hno r hr
    rw [applyMerge, hidx]
  · intro i hi hmatch hfirst
    have hidx : df.findIdx? (fun r => matchKey r == extKey e) = some i := by
      rw [List.findIdx?_eq_some_iff_getElem]
      refine ⟨hi, by simpa using hmatch, ?_⟩
      intro j hj
      simpa using hfirst j (Nat.lt_trans hj hi) hj
    have happ : applyMerge df e = df.set i (overwriteFive (df.getD i default) e) := by
      rw [applyMerge, hidx]
    have hati : (applyMerge df e).getD i default = overwriteFive (df.getD i default) e := by
      rw [happ, List.getD_eq_getElem?_getD, List.getElem?_set_self hi]
      rfl
    refine ⟨by rw [happ]; exact List.length_set df i _, ?_, ?_⟩
    · intro j hj
      rw [happ, List.getD_eq_getElem?_getD, List.getElem?_set_ne (fun h => hj h.symm),
        ← List.getD_eq_getElem?_getD]
    · rw [hati]
      exact ⟨rfl, rfl, rfl, rfl, rfl, rfl, rfl, rfl, rfl, rfl, rfl, rfl, rfl, rfl, rfl,
        rfl, rfl⟩

/-- Concrete combined rows for the C4 witness: rows 1 and 2 share the
match key; the external row must update only row 1. -/
def c4Df : List DRow :=
  [{ orderDate := none, shipToName := none, purchaseOrderNo := none, startDate := none,
     cancelDate := none, invoiceNo := some "I9".toList, style := some "SX".toList,
     cartons := some "1".toList, individualPieces := some "10".toList,
     individualWeight := some "5.5".toList, bolCube := some "70.00".toList,
     totalPieces := some "30".toList, totalWeight := some "16".toList,
     pallet := none, burlingtonCube := none, finalCube := none,
     rest := List.replicate 12 none },
   { orderDate := none, shipToName := none, purchaseOrderNo := none, startDate := none,
     cancelDate := none, invoiceNo := some "I1".toList, style := some "S1".toList,
     cartons := some "5".toList, individualPieces := some "50".toList,
     individualWeight := some "10.5".toList, bolCube := some "70.00".toList,
     totalPieces := none, totalWeight := none,
     pallet := none, burlingtonCube := none, finalCube := none,
     rest := List.replicate 12 none },
   { orderDate := none, shipToName := none, purchaseOrderNo := none, startDate := none,
     cancelDate := none, invoiceNo := some "I1".toList, style := some "S1".toList,
     cartons := some "5".toList, individualPieces := some "50".toList,
     individualWeight := some "10.5".toList, bolCube := some "70.00".toList,
     totalPieces := none, totalWeight := none,
     pallet := none, burlingtonCube := none, finalCube := none,
     rest := List.replicate 12 none }]

/-- The external row for the C4 witness (matches rows 1 and 2 of `c4Df`). -/
def c4Ext : ExtRow :=
  { invoiceDate := some "1/2/2025".toList, shipToName := some "ACME CO".toList,
    orderNo := some "PO77".toList, deliveryDate := some "1/5/2025".toList,
    cancelDate := some "3152025".toList, invoiceNo := some "i1 ".toList,
    style := some "s1".toList, cartons := some "5".toList,
    individualPieces := some "50".toList }

/-- Witness for C4: only the first of the two key-sharing rows is updated,
its non-mapped columns survive, and the later duplicate row is untouched. -/
theorem merge_updates_first_match_only_witness :
    (applyMerge c4Df c4Ext).length = 3
    ∧ ((applyMerge c4Df c4Ext).getD 1 default).shipToName = some "ACME CO".toList
    ∧ ((applyMerge c4Df c4Ext).getD 1 default).invoiceNo = some "I1".toList
    ∧ (applyMerge c4Df c4Ext).getD 2 default = c4Df.getD 2 default
    ∧ (applyMerge c4Df c4Ext).getD 0 default = c4Df.getD 0 default := by
  have h := (merge_updates_first_match_only c4Df c4Ext).2 1 (by decide) (by decide)
    (by decide)
  refine ⟨h.1.trans (by decide), h.2.2.2.1, ?_, h.2.1 2 (by decide), h.2.1 0 (by decide)⟩
  exact h.2.2.2.2.2.2.2.1.trans (by decide)

/-- A leading `'0'` does not change the numeric value of a digit string. -/
theorem natOfDigits_cons_zero (l : Str) : natOfDigits ('0' :: l) = natOfDigits l := by
  simp [natOfDigits]

/-- `mkValidDate` on all-digit non-empty components reduces to the
calendar-validity-and-bounds test on their numeric values. -/
theorem mkValidDate_of_digits (ms ds ys : Str)
    (h1 : ms.all isDigitChar = true) (h2 : ds.all isDigitChar = true)
    (h3 : ys.all isDigitChar = true) (n1 : ms.isEmpty = false)
    (n2 : ds.isEmpty = false) (n3 : ys.isEmpty = false) :
    mkValidDate ms ds ys
      = if validDate (natOfDigits ys) (natOfDigits ms) (natOfDigits ds)
            && inTimestampBounds (natOfDigits ys) (natOfDigits ms) (natOfDigits ds)
        then some ⟨natOfDigits ys, natOfDigits ms, natOfDigits ds⟩
        else none := by
  rw [mkValidDate, if_pos]
  simp [h1, h2, h3, n1, n2, n3]

/-- C6 (amended): cancel-date parsing maps a 7-digit string as `MDDYYYY`
(month zero-padded) and an 8-digit string as `MMDDYYYY` to the
corresponding calendar date when it is valid AND within pandas'
representable `Timestamp` range (1677-09-22 .. 2262-04-11); any other
length, an invalid calendar date, or an out-of-range one yields the null
marker, and in the sort-key order used by the final sort the null marker
orders strictly after every valid date. -/
theorem cancel_date_parse_and_null_ordering :
    (∀ s : Str, (stripPy s).length = 7 → (stripPy s).all isDigitChar = true →
      parse_cancel_date s
        = if validDate (natOfDigits ((stripPy s).drop 3)) (natOfDigits ((stripPy s).take 1))
              (natOfDigits (((stripPy s).drop 1).take 2))
              && inTimestampBounds (natOfDigits ((stripPy s).drop 3))
                  (natOfDigits ((stripPy s).take 1))
                  (natOfDigits (((stripPy s).drop 1).take 2))
          then some ⟨natOfDigits ((stripPy s).drop 3), natOfDigits ((stripPy s).take 1),
                     natOfDigits (((stripPy s).drop 1).take 2)⟩
          else none)
    ∧ (∀ s : Str, (stripPy s).length = 8 → (stripPy s).all isDigitChar = true →
      parse_cancel_date s
        = if validDate (natOfDigits ((stripPy s).drop 4)) (natOfDigits ((stripPy s).take 2))
              (natOfDigits (((stripPy s).drop 2).take 2))
              && inTimestampBounds (natOfDigits ((stripPy s).drop 4))
                  (natOfDigits ((stripPy s).take 2))
                  (natOfDigits (((stripPy s).drop 2).take 2))
          then some ⟨natOfDigits ((stripPy s).drop 4), natOfDigits ((stripPy s).take 2),
                     natOfDigits (((stripPy s).drop 2).take 2)⟩
          else none)
    ∧ (∀ s : Str, (stripPy s).length ≠ 7 → (stripPy s).length ≠ 8 →
        parse_cancel_date s = none)
    ∧ (∀ d : CalDate, optDateLt (some d) none = true ∧ optDateLe none (some d) = false) := by
  have hsub : ∀ (l t : Str), l.all isDigitChar = true → t.Sublist l →
      t.all isDigitChar = true := by
    intro l t hl ht
    rw [List.all_eq_true] at hl ⊢
    exact fun c hc => hl c (ht.subset hc)
  refine ⟨?_, ?_, ?_, ?_⟩
  · intro s h7 hdig
    rw [parse_cancel_date, if_pos h7]
    have hlen1 : ((stripPy s).take 1).length = 1 := by
      rw [List.length_take, h7]
      decide
    have hz : zfill2 ((stripPy s).take 1) = '0' :: (stripPy s).take 1 := by
      rw [zfill2, hlen1]
      rfl
    rw [hz, mkValidDate_of_digits]
    · rw [natOfDigits_cons_zero]
    · have := hsub _ _ hdig (List.take_sublist 1 (stripPy s))
      simp only [List.all_cons, this, Bool.and_true]
      decide
    · exact hsub _ _ hdig ((List.take_sublist 2 _).trans (List.drop_sublist 1 _))
    · exact hsub _ _ hdig (List.drop_sublist 3 _)
    · rfl
    · have h2 : (((stripPy s).drop 1).take 2).length = 2 := by
        rw [List.length_take, List.length_drop, h7]
        decide
      cases hx : ((stripPy s).drop 1).take 2 with
      | nil => rw [hx] at h2; simp at h2
      | cons a t => rfl
    · have h4 : ((stripPy s).drop 3).length = 4 := by
        rw [List.length_drop, h7]
      cases hx : (stripPy s).drop 3 with
      | nil => rw [hx] at h4; simp at h4
      | cons a t => rfl
  · intro s h8 hdig
    rw [parse_cancel_date, if_neg (by omega), if_pos h8]
    rw [mkValidDate_of_digits]
    · exact hsub _ _ hdig (List.take_sublist 2 _)
    · exact hsub _ _ hdig ((List.take_sublist 2 _).trans (List.drop_sublist 2 _))
    · exact hsub _ _ hdig (List.drop_sublist 4 _)
    · have h2 : ((stripPy s).take 2).length = 2 := by
        rw [List.length_take, h8]
        decide
      cases hx : (stripPy s).take 2 with
      | nil => rw [hx] at h2; simp at h2
      | cons a t => rfl
    · have h2 : (((stripPy s).drop 2).take 2).length = 2 := by
        rw [List.length_take, List.length_drop, h8]
        decide
      cases hx : ((stripPy s).drop 2).take 2 with
      | nil => rw [hx] at h2; simp at h2
      | cons a t => rfl
    · have h4 : ((stripPy s).drop 4).length = 4 := by
        rw [List.length_drop, h8]
      cases hx : (stripPy s).drop 4 with
      | nil => rw [hx] at h4; simp at h4
      | cons a t => rfl
  · intro s h7 h8
    rw [parse_cancel_date, if_neg h7, if_neg h8]
  · intro d
    exact ⟨rfl, rfl⟩

/-- Witness for C6: "3152025" parses as March 15 2025; "02292025" is an
invalid calendar date (2025 is not a leap year) and yields the marker. -/
theorem cancel_date_parse_witness :
    parse_cancel_date "3152025".toList = some ⟨2025, 3, 15⟩
    ∧ parse_cancel_date "02292025".toList = none
    ∧ parse_cancel_date "12312025".toList = some ⟨2025, 12, 31⟩
    ∧ parse_cancel_date "315202".toList = none
    ∧ optDateLt (some ⟨2025, 3, 15⟩) none = true := by
  have h7 := cancel_date_parse_and_null_ordering.1 "3152025".toList (by decide) (by decide)
  have h8 := cancel_date_parse_and_null_ordering.2.1 "02292025".toList (by decide) (by decide)
  have h8b := cancel_date_parse_and_null_ordering.2.1 "12312025".toList (by decide) (by decide)
  have h6 := cancel_date_parse_and_null_ordering.2.2.1 "315202".toList (by decide) (by decide)
  exact ⟨h7.trans (by decide), h8.trans (by decide), h8b.trans (by decide), h6,
    (cancel_date_parse_and_null_ordering.2.2.2 ⟨2025, 3, 15⟩).1⟩

/-- Counterexample to C6 as stated: `"1011500"` is a 7-character digit
string whose `MDDYYYY` reading 01/01/1500 is a valid calendar date, yet
the program yields the null marker — `pd.to_datetime` raises
`OutOfBoundsDatetime` for dates outside pandas' `Timestamp` range
(1677-09-22 .. 2262-04-11 at midnight) and the bare `except` in
`parse_cancel_date` returns `NaT`. -/
theorem cancel_date_out_of_bounds_counterexample :
    validDate 1500 1 1 = true
    ∧ parse_cancel_date "1011500".toList = none := by decide

/-- The claim's reading of "Ship To Name contains 'burlington'
(case-insensitively)" on a dataset cell, where a missing value reads as
the blank string (which contains no substring). -/
def shipContainsBurlington (c : Option Str) : Bool :=
  containsSub ("burlington".toList) (lowerS (c.getD []))

/-- Counterexample to C7 as stated: a merged row with a missing Ship To
Name and a non-blank Pallet of 2 does NOT contain "burlington", yet the
code leaves Final Cube blank instead of `2 × 130` (the `isinstance` check
fails on a missing value). -/
theorem final_cube_missing_ship_counterexample :
    shipContainsBurlington none = false
    ∧ compute_final_cube none (some 2) = none
    ∧ (none : Option Int) ≠ some (2 * 130) := by decide

/-- C7 (amended): for a merged row whose Ship To Name is present,
Burlington Cube is `Pallet × 93` exactly when the name contains
"burlington" case-insensitively (blank otherwise) and Final Cube is
`Pallet × 130` exactly when it does not (blank otherwise); when Pallet is
blank, or the Ship To Name is missing, both derived fields are blank; on
no row are both non-blank. -/
theorem derived_cube_fields_rule (s : Str) (p : Int) (ship : Option Str)
    (pallet : Option Int) :
    (compute_burlington (some s) (some p)
        = if containsSub ("burlington".toList) (lowerS s) then some (p * 93) else none)
    ∧ (compute_final_cube (some s) (some p)
        = if containsSub ("burlington".toList) (lowerS s) then none else some (p * 130))
    ∧ compute_burlington ship none = none
    ∧ compute_final_cube ship none = none
    ∧ compute_burlington none pallet = none
    ∧ compute_final_cube none pallet = none
    ∧ (compute_burlington ship pallet = none ∨ compute_final_cube ship pallet = none) := by
  refine ⟨rfl, rfl, ?_, ?_, rfl, rfl, ?_⟩
  · cases ship with
    | none => rfl
    | some s' =>
      have e : compute_burlington (some s') none
          = if containsSub ("burlington".toList) (lowerS s') then none else none := rfl
      rw [e, ite_self]
  · cases ship with
    | none => rfl
    | some s' =>
      have e : compute_final_cube (some s') none
          = if containsSub ("burlington".toList) (lowerS s') then none else none := rfl
      rw [e, ite_self]
  · cases ship with
    | none => exact Or.inl rfl
    | some s' =>
      cases h : containsSub ("burlington".toList) (lowerS s') with
      | true =>
        refine Or.inr ?_
        have e : compute_final_cube (some s') pallet
            = if containsSub ("burlington".toList) (lowerS s') then none
              else match pallet with | none => none | some p => some (p * 130) := rfl
        rw [e, h]
        simp
      | false =>
        refine Or.inl ?_
        have e : compute_burlington (some s') pallet
            = if containsSub ("burlington".toList) (lowerS s') then
                (match pallet with | none => none | some p => some (p * 93))
              else none := rfl
        rw [e, h]
        simp

/-- Specialization of `ceilDiv_eq_ceil` to the divisor 80 with the
numeral on the rational side. -/
theorem ceilDiv80_eq (q : ℚ) : ceilDiv q 80 = ⌈q / (80 : ℚ)⌉ := by
  rw [ceilDiv_eq_ceil q 80 (by norm_num)]
  norm_num

/-- C8: when the comma-stripped, trimmed BOL Cube parses as a decimal
number `q`, Pallet is `⌈q / 80⌉`; a non-numeric or missing BOL Cube
yields blank. -/
theorem pallet_ceiling_rule (s : Str) :
    (∀ q : ℚ, pyFloat (stripPy (remComma s)) = some q →
        compute_pallet (some s) = some ⌈q / (80 : ℚ)⌉)
    ∧ (pyFloat (stripPy (remComma s)) = none → compute_pallet (some s) = none)
    ∧ compute_pallet none = none := by
  refine ⟨?_, ?_, rfl⟩
  · intro q hq
    simp only [compute_pallet]
    rw [hq]
    show some (ceilDiv q 80) = some ⌈q / (80 : ℚ)⌉
    rw [ceilDiv80_eq]
  · intro h
    simp only [compute_pallet]
    rw [h]

/-- Witness for C8: `"160.00"` gives Pallet 2, `"161.00"` gives 3, and a
non-numeric BOL Cube gives blank. -/
theorem pallet_ceiling_rule_witness :
    compute_pallet (some "160.00".toList) = some 2
    ∧ compute_pallet (some "161.00".toList) = some 3
    ∧ compute_pallet (some "x".toList) = none := by
  have h1 := (pallet_ceiling_rule "160.00".toList).1 (mkRat 160 1) (by decide)
  have h2 := (pallet_ceiling_rule "161.00".toList).1 (mkRat 161 1) (by decide)
  have h3 := (pallet_ceiling_rule "x".toList).2.1 (by decide)
  refine ⟨h1.trans ?_, h2.trans ?_, h3⟩
  · rw [← ceilDiv80_eq]
    decide
  · rw [← ceilDiv80_eq]
    decide

/-- The concrete first-of-group row for C10: zero BOL Cube and a
non-burlington ship-to name. -/
def c10Row : DRow :=
  { orderDate := none, shipToName := some "ACME".toList, purchaseOrderNo := none,
    startDate := none, cancelDate := none, invoiceNo := some "I1".toList,
    style := some "S1".toList, cartons := some "5".toList,
    individualPieces := some "50".toList, individualWeight := some "10.5".toList,
    bolCube := some "0.00".toList, totalPieces := some "50".toList,
    totalWeight := some "10".toList, pallet := none, burlingtonCube := none,
    finalCube := none, rest := List.replicate 12 none }

/-- C10: a zero BOL Cube yields Pallet 0 (not blank), a negative decimal
yields a non-positive Pallet, and on the first row of such an invoice
group with a non-burlington ship name the derived pass materializes Final
Cube as 0 rather than blank. -/
theorem zero_cube_pallet_materialization :
    compute_pallet (some "0.00".toList) = some 0
    ∧ (∀ (s : Str) (q : ℚ), pyFloat (stripPy (remComma s)) = some q → q < 0 →
        ∃ n : Int, compute_pallet (some s) = some n ∧ n ≤ 0)
    ∧ compute_final_cube (some "ACME".toList) (some 0) = some 0
    ∧ ((deriveStep none [c10Row]).getD 0 default).finalCube = some 0
    ∧ ((deriveStep none [c10Row]).getD 0 default).pallet = some 0 := by
  refine ⟨by decide, ?_, by decide, by decide, by decide⟩
  intro s q hq hneg
  refine ⟨ceilDiv q 80, by simp only [compute_pallet]; rw [hq], ?_⟩
  rw [ceilDiv_eq_ceil q 80 (by norm_num)]
  have hdiv : q / (80 : ℚ) ≤ 0 := by
    apply div_nonpos_of_nonpos_of_nonneg (le_of_lt hneg)
    norm_num
  calc ⌈q / (80 : ℚ)⌉ ≤ ⌈(0 : ℚ)⌉ := Int.ceil_le_ceil hdiv
    _ = 0 := Int.ceil_zero

/-- Witness for C10's negative-cube clause at `"-160.00"`. -/
theorem zero_cube_pallet_materialization_witness :
    ∃ n : Int, compute_pallet (some "-160.00".toList) = some n ∧ n ≤ 0 := by
  exact zero_cube_pallet_materialization.2.1 "-160.00".toList (mkRat (-160) 1)
    (by decide) (by decide)

/-- `find?` returns the head of the filtered list. -/
theorem find?_eq_head?_filter {α : Type} (l : List α) (p : α → Bool) :
    l.find? p = (l.filter p).head? := by
  induction l with
  | nil => rfl
  | cons x xs ih =>
    rw [List.find?_cons, List.filter_cons]
    cases h : p x with
    | true => simp
    | false => simp only [Bool.false_eq_true, if_false]
               exact ih

/-- Filtering away an element inserted by `orderedInsert` leaves the
filtered list unchanged. -/
theorem filter_orderedInsert_neg {α : Type} (r : α → α → Prop) [DecidableRel r]
    (p : α → Bool) (a : α) (ha : p a = false) :
    ∀ l : List α, (l.orderedInsert r a).filter p = l.filter p := by
  intro l
  induction l with
  | nil => simp [List.orderedInsert, ha]
  | cons b t ih =>
    rw [List.orderedInsert]
    by_cases h : r a b
    · rw [if_pos h, List.filter_cons, ha]
      simp
    · rw [if_neg h, List.filter_cons, List.filter_cons, ih]

/-- If the inserted element satisfies `p` and relates (on the left) to
every `p`-element, `orderedInsert` puts it in front of the filtered list. -/
theorem filter_orderedInsert_pos {α : Type} (r : α → α → Prop) [DecidableRel r]
    (p : α → Bool) (a : α) (ha : p a = true)
    (hcomp : ∀ x, p x = true → r a x) :
    ∀ l : List α, (l.orderedInsert r a).filter p = a :: l.filter p := by
  intro l
  induction l with
  | nil => simp [List.orderedInsert, ha]
  | cons b t ih =>
    rw [List.orderedInsert]
    by_cases h : r a b
    · rw [if_pos h, List.filter_cons, ha]
      simp
    · rw [if_neg h, List.filter_cons]
      have hb : p b = false := by
        cases hpb : p b with
        | false => rfl
        | true => exact absurd (hcomp b hpb) h
      rw [hb, List.filter_cons, hb]
      simpa using ih

/-- Stability of `insertionSort`: if any two `p`-elements relate under
`r` (they share a sort key), the `p`-filtered subsequence of the sorted
list is exactly the `p`-filtered subsequence of the input. -/
theorem filter_insertionSort {α : Type} (r : α → α → Prop) [DecidableRel r]
    (p : α → Bool) (hkey : ∀ a b, p a = true → p b = true → r a b) :
    ∀ l : List α, (l.insertionSort r).filter p = l.filter p := by
  intro l
  induction l with
  | nil => rfl
  | cons a t ih =>
    rw [List.insertionSort]
    cases ha : p a with
    | false =>
      rw [filter_orderedInsert_neg r p a ha, ih, List.filter_cons, ha]
      simp
    | true =>
      rw [filter_orderedInsert_pos r p a ha (fun x hx => hkey a x ha hx), ih,
        List.filter_cons, ha]
      simp

/-- C9 (implicit): the emitter's sort by invoice number is stable — for
any invoice value, the subsequence of rows carrying it is exactly the same
(same rows, same relative order) before and after sorting; in particular
the first row of each invoice group after the sort, the row that receives
the totals, is the first-collected row of that invoice. -/
theorem invoice_sort_stable (rows : List AllRow) (v : Str) :
    (sortRowsByInvoice rows).filter (fun r => r.invoice == v)
      = rows.filter (fun r => r.invoice == v)
    ∧ (sortRowsByInvoice rows).find? (fun r => r.invoice == v)
      = rows.find? (fun r => r.invoice == v) := by
  have hfilter : (sortRowsByInvoice rows).filter (fun r => r.invoice == v)
      = rows.filter (fun r => r.invoice == v) := by
    apply filter_insertionSort
    intro a b ha hb
    simp only [beq_iff_eq] at ha hb
    simp [rowLeByInvoice, ha, hb, lexLeCh]
  refine ⟨hfilter, ?_⟩
  rw [find?_eq_head?_filter, find?_eq_head?_filter, hfilter]

/-- A row carrying non-blank Total Pieces and Total Weight. -/
def carriesTotals (r : DRow) : Bool := !(r.totalPieces == none) && !(r.totalWeight == none)

/-- A row blank in both totals columns. -/
def blankTotals (r : DRow) : Bool := r.totalPieces == none && r.totalWeight == none

/-- The claim C5 as stated: in a dataset, for every invoice group, the
FIRST row of the group (in dataset order) carries non-blank totals and
every other row of the group is blank in both totals columns. -/
def firstRowTotalsOnly (df : List DRow) : Bool :=
  (df.map (fun r => r.invoiceNo)).all (fun v =>
    match df.filter (fun r => r.invoiceNo == v) with
    | [] => true
    | h :: t => carriesTotals h && t.all blankTotals)

/-- Two collected rows of invoice `I1` (blank BOL cube). -/
def c5Rows : List AllRow :=
  [⟨"5".toList, [], "50".toList, "10.5".toList, "I1".toList, "S1".toList⟩,
   ⟨"6".toList, [], "60".toList, "11.5".toList, "I1".toList, "S2".toList⟩]

/-- The combined dataset emitted for `c5Rows` with totals `100` / `595`. -/
def c5Df : List DRow := emitRows c5Rows "100".toList "595".toList

/-- Two external rows matching the two rows of `c5Df`, both shipping to
`ACME`; the row holding the totals gets the LATER cancel date. -/
def c5Ext : List ExtRow :=
  [⟨some "d1".toList, some "ACME".toList, some "p1".toList, some "sd1".toList,
    some "12312025".toList, some "I1".toList, some "S1".toList, some "5".toList,
    some "50".toList⟩,
   ⟨some "d2".toList, some "ACME".toList, some "p2".toList, some "sd2".toList,
    some "01012025".toList, some "I1".toList, some "S2".toList, some "6".toList,
    some "60".toList⟩]

/-- Counterexample to C5 as stated: before reconciliation the totals sit
on the first row of the invoice group, but the final sort orders the two
rows of invoice `I1` by their own cancel dates, moving the blank-totals
row (earlier date) in front of the totals-bearing row. -/
theorem first_row_totals_after_sort_counterexample :
    firstRowTotalsOnly c5Df = true
    ∧ firstRowTotalsOnly (reconcile c5Df c5Ext) = false := by decide

/-- Replacing a list element by one with the same `p`-value keeps `countP`. -/
theorem countP_set_eq {α : Type} (p : α → Bool) :
    ∀ (l : List α) (i : Nat) (a d : α), i < l.length → p a = p (l.getD i d) →
      List.countP p (l.set i a) = List.countP p l := by
  intro l
  induction l with
  | nil => intro i a d h _; exact absurd h (by simp)
  | cons x t ih =>
    intro i a d hi hp
    cases i with
    | zero =>
      rw [List.set_cons_zero, List.countP_cons, List.countP_cons]
      simp only [List.getD_cons_zero] at hp
      rw [hp]
    | succ n =>
      rw [List.set_cons_succ, List.countP_cons, List.countP_cons]
      simp only [List.getD_cons_succ] at hp
      rw [ih n a d (by simpa using Nat.lt_of_succ_lt_succ hi) hp]

/-- `applyMerge` preserves `countP` for predicates insensitive to the five
overwritten fields. -/
theorem countP_applyMerge (p : DRow → Bool)
    (hp : ∀ r e, p (overwriteFive r e) = p r) (df : List DRow) (e : ExtRow) :
    List.countP p (applyMerge df e) = List.countP p df := by
  rw [applyMerge]
  cases h : df.findIdx? (fun r => matchKey r == extKey e) with
  | none => rfl
  | some i =>
    obtain ⟨hlen, -, -⟩ := List.findIdx?_eq_some_iff_getElem.mp h
    exact countP_set_eq p df i _ default hlen (hp _ e)

/-- The whole merge loop preserves `countP` for such predicates. -/
theorem countP_mergeAll (p : DRow → Bool)
    (hp : ∀ r e, p (overwriteFive r e) = p r) (incs : List ExtRow) :
    ∀ df : List DRow, List.countP p (mergeAll df incs) = List.countP p df := by
  induction incs with
  | nil => intro df; rfl
  | cons e rest ih =>
    intro df
    show List.countP p (mergeAll (applyMerge df e) rest) = _
    rw [ih (applyMerge df e), countP_applyMerge p hp df e]

/-- The derived-column pass preserves `countP` for predicates insensitive
to the three derived columns. -/
theorem countP_deriveStep (p : DRow → Bool)
    (hp : ∀ (r : DRow) (pv bv fv : Option Int),
      p { r with pallet := pv, burlingtonCube := bv, finalCube := fv } = p r) :
    ∀ (df : List DRow) (cur : Option (Option Str)),
      List.countP p (deriveStep cur df) = List.countP p df := by
  intro df
  induction df with
  | nil => intro cur; rfl
  | cons r t ih =>
    intro cur
    have heq : deriveStep cur (r :: t)
        = (if (match cur with
               | none => true
               | some prev => pyCellNeq r.invoiceNo prev) then
             { r with pallet := compute_pallet r.bolCube,
                      burlingtonCube :=
                        compute_burlington r.shipToName (compute_pallet r.bolCube),
                      finalCube :=
                        compute_final_cube r.shipToName (compute_pallet r.bolCube) }
           else { r with pallet := none, burlingtonCube := none, finalCube := none })
          :: deriveStep (some r.invoiceNo) t := rfl
    rw [heq, List.countP_cons, List.countP_cons, ih (some r.invoiceNo)]
    congr 1
    split
    · rw [hp]
    · rw [hp]

/-- The final sort is a permutation, hence preserves every `countP`. -/
theorem countP_finalSort (p : DRow → Bool) (df : List DRow) :
    List.countP p (finalSort df) = List.countP p df :=
  (List.perm_insertionSort (fun a b => finalSortLe df a b = true) df).countP_eq p

/-- After the group head, `assignTotals` with the tracker already at the
shared invoice emits no further totals-carrying row of that invoice. -/
theorem countP_assignTotals_tail (tp tw inv : Str) :
    ∀ rows : List AllRow, (∀ r ∈ rows, r.invoice = inv) →
      List.countP (fun r => carriesTotals r && r.invoiceNo == some inv)
        (assignTotals tp tw (some inv) rows) = 0 := by
  intro rows
  induction rows with
  | nil => intro _; rfl
  | cons r t ih =>
    intro hall
    have hr : r.invoice = inv := hall r (List.mem_cons_self r t)
    rw [assignTotals, List.countP_cons]
    have hfirst : (some inv ≠ some r.invoice) = False := by simp [hr]
    rw [hr]
    rw [ih (fun x hx => hall x (List.mem_cons_of_mem r hx))]
    simp [carriesTotals, hfirst, hr]

/-- On a non-empty single-invoice row list, `assignTotals` starting from
the `None` tracker emits exactly one totals-carrying row — the first. -/
theorem countP_assignTotals_head (tp tw inv : Str) (htp : tp.isEmpty = false)
    (htw : tw.isEmpty = false) (hinv : inv.isEmpty = false) :
    ∀ rows : List AllRow, rows ≠ [] → (∀ r ∈ rows, r.invoice = inv) →
      List.countP (fun r => carriesTotals r && r.invoiceNo == some inv)
        (assignTotals tp tw none rows) = 1
      ∧ (assignTotals tp tw none rows).head?.all
          (fun r => carriesTotals r && r.invoiceNo == some inv) = true := by
  intro rows hne hall
  cases rows with
  | nil => exact absurd rfl hne
  | cons r t =>
    have hr : r.invoice = inv := hall r (List.mem_cons_self r t)
    rw [assignTotals, List.countP_cons]
    have h0 : (none ≠ some r.invoice) = True := by simp
    rw [hr]
    rw [countP_assignTotals_tail tp tw inv t (fun x hx => hall x (List.mem_cons_of_mem r hx))]
    constructor
    · simp [carriesTotals, h0, mkCell, htp, htw, hinv, hr]
    · simp [carriesTotals, h0, mkCell, htp, htw, hinv, hr]

/-- C5 (amended): exactly ONE row of each invoice group carries non-blank
Total Pieces and Total Weight in the final persisted dataset: the emitter
places totals on exactly one row of each single-invoice emission (its
first row), and the reconciliation merge, the derived-column pass and the
final sort all preserve the number of totals-carrying rows per invoice —
but after the final sort that row need not be the FIRST of its group. -/
theorem unique_totals_row_per_invoice :
    (∀ (inv tp tw : Str) (rows : List AllRow), rows ≠ [] →
      (∀ r ∈ rows, r.invoice = inv) → inv.isEmpty = false → tp.isEmpty = false →
      tw.isEmpty = false →
      List.countP (fun r => carriesTotals r && r.invoiceNo == some inv)
        (emitRows rows tp tw) = 1)
    ∧ (∀ (df : List DRow) (incs : List ExtRow) (v : Option Str),
        List.countP (fun r => carriesTotals r && r.invoiceNo == v) (reconcile df incs)
          = List.countP (fun r => carriesTotals r && r.invoiceNo == v) df) := by
  constructor
  · intro inv tp tw rows hne hall hinv htp htw
    rw [emitRows]
    have hlen := List.length_insertionSort (fun a b => rowLeByInvoice a b = true) rows
    have hsne : sortRowsByInvoice rows ≠ [] := by
      intro h
      apply hne
      rw [sortRowsByInvoice] at h
      rw [h] at hlen
      exact List.eq_nil_of_length_eq_zero hlen.symm
    have hall' : ∀ r ∈ sortRowsByInvoice rows, r.invoice = inv := by
      intro r hr
      rw [sortRowsByInvoice] at hr
      exact hall r ((List.mem_insertionSort _).mp hr)
    exact (countP_assignTotals_head tp tw inv htp htw hinv _ hsne hall').1
  · intro df incs v
    rw [reconcile, countP_finalSort]
    rw [countP_deriveStep (fun r => carriesTotals r && r.invoiceNo == v)
      (fun r pv bv fv => rfl)]
    rw [countP_mergeAll (fun r => carriesTotals r && r.invoiceNo == v)
      (fun r e => rfl)]

/-- Witness for C5 (amended) on the counterexample data: invoice `I1` has
exactly one totals-carrying row both before and after reconciliation. -/
theorem unique_totals_row_per_invoice_witness :
    List.countP (fun r => carriesTotals r && r.invoiceNo == some "I1".toList) c5Df = 1
    ∧ List.countP (fun r => carriesTotals r && r.invoiceNo == some "I1".toList)
        (reconcile c5Df c5Ext) = 1 := by
  have h1 := unique_totals_row_per_invoice.1 "I1".toList "100".toList "595".toList c5Rows
    (by decide) (by decide) (by decide) (by decide) (by decide)
  have h2 := unique_totals_row_per_invoice.2 c5Df c5Ext (some "I1".toList)
  exact ⟨h1, h2.trans (by decide)⟩
